import Mathlib

/-!
Shallow embedding of the andiwork/go-healthcheck repository: the probe
constructors of src/health.go and the checker configuration of the unnamed
source file (InitChecker, AddCheck, AddDatabaseCheck, GetCheckerHandler).
The aggregation, cache and listener engine is provided by the external
alexliesenfeld/health library, which is not part of this repository; where a
claim depends on it, the engine is modelled from the specification and the
corresponding definitions carry a doc comment saying so.
-/

namespace Healthcheck

/-- Time values and durations are modelled as integers counting nanoseconds,
matching the Go representation of time.Duration as an int64 nanosecond count. -/
abbrev Duration := Int

/-- One second in nanoseconds, the model of time.Second. -/
def second : Duration := 1000000000

/-- A Go context, modelled by its effective absolute deadline: none means the
context carries no deadline, as context.Background does. A cancelled or
expired context is one whose deadline lies at or before the current time. -/
structure Context where
  deadline : Option Int
deriving DecidableEq, Repr

/-- The model of context.Background: no deadline. -/
def Context.background : Context := ⟨none⟩

/-- Combine an optional parent deadline with a new absolute deadline: the
child context dies as soon as either bound is reached. -/
def optDeadlineMin : Option Int → Int → Int
  | none, d => d
  | some a, d => min a d

/-- The model of context.WithTimeout: the derived context has deadline
now + timeout, further capped by the parent deadline when the parent has
one. -/
def Context.withTimeout (parent : Context) (now : Int) (timeout : Duration) : Context :=
  ⟨some (optDeadlineMin parent.deadline (now + timeout))⟩

/-- Inner respects outer when inner cannot outlive outer: whenever outer has
a deadline, inner has one that is at most it. This is what it means for the
work running under inner to be bounded by the outer context. -/
def Context.respects (inner outer : Context) : Bool :=
  match outer.deadline, inner.deadline with
  | none, _ => true
  | some _, none => false
  | some d, some dI => decide (dI ≤ d)

/-- Ambient observations a check function makes when invoked: the goroutine
count runtime.NumGoroutine would report, the PauseNs samples of
runtime.MemStats (each a uint64 value), the current time, and the context
the library passes to the check. -/
structure Env where
  numGoroutine : Int
  pauses : List Nat
  now : Int
  ctx : Context

/-- A check function: given the ambient environment it returns none on
success or some message on failure, the model of func(ctx) error. -/
abbrev CheckFn := Env → Option String

/-- A database handle, modelled by the outcome PingContext returns under a
given context. A nil *sql.DB is represented by Option.none at use sites. -/
abbrev DBHandle := Context → Option String

/-- A DNS resolver, modelled by the result LookupHost returns for a host
under a given context: an error, or the list of addresses. -/
abbrev Resolver := Context → String → Except String (List String)

/-- From src/health.go: GoroutineCountCheck returns a Check that fails if
too many goroutines are running. -/
def GoroutineCountCheck (threshold : Int) : CheckFn := fun env =>
  let count := env.numGoroutine
  if count > threshold then
    some s!"too many goroutines ({count} > {threshold})"
  else
    none

/-- The Go conversion uint64(x) of an int64 value: reduction modulo 2 ^ 64,
yielding the nonnegative representative. -/
def uint64OfInt64 (v : Int) : Nat := (v % (2 ^ 64 : Int)).toNat

/-- From src/health.go: GCMaxPauseCheck returns a Check that fails if any
recent GC pause exceeds the threshold. The threshold, a time.Duration whose
Nanoseconds method returns the underlying int64 count, is converted with
uint64(...); each PauseNs sample is compared against the converted value.
Duration pretty-printing in the failure message is abstracted to nanosecond
counts. -/
def GCMaxPauseCheck (threshold : Duration) : CheckFn := fun env =>
  let thresholdNanoseconds := uint64OfInt64 threshold
  match env.pauses.find? (fun pause => decide (pause > thresholdNanoseconds)) with
  | some pause => some s!"recent GC cycle took {pause}ns > {thresholdNanoseconds}ns"
  | none => none

/-- The context under which the database ping runs. From the source: the
check body builds context.WithTimeout(context.Background(), timeout),
ignoring the context passed to the check, which this definition receives
and discards exactly as the source does. -/
def DatabasePingCheckCtx (timeout : Duration) (_passed : Context) (now : Int) : Context :=
  Context.withTimeout Context.background now timeout

/-- From src/health.go: DatabasePingCheck returns a Check that validates
connectivity to a database using Ping. The inner context is built first,
then the nil guard runs, then the ping, exactly as in the source. -/
def DatabasePingCheck (database : Option DBHandle) (timeout : Duration) : CheckFn := fun env =>
  let ctx := DatabasePingCheckCtx timeout env.ctx env.now
  match database with
  | none => some "database is nil"
  | some db => db ctx

/-- The context under which the DNS lookup runs. From the source: the check
body builds context.WithTimeout(context.Background(), timeout), ignoring
the context passed to the check. -/
def DNSResolveCheckCtx (timeout : Duration) (_passed : Context) (now : Int) : Context :=
  Context.withTimeout Context.background now timeout

/-- From src/health.go: DNSResolveCheck returns a Check that makes sure the
host resolves to at least one address within the timeout. -/
def DNSResolveCheck (resolver : Resolver) (host : String) (timeout : Duration) : CheckFn :=
  fun env =>
    let ctx := DNSResolveCheckCtx timeout env.ctx env.now
    match resolver ctx host with
    | .error e => some e
    | .ok addrs => if addrs.length < 1 then some "could not resolve host" else none

/-- Modelled from the spec: the overall health status computed by the
external aggregation engine is binary, Healthy or Unhealthy, with no third
tier. -/
inductive Status where
  | healthy
  | unhealthy
deriving DecidableEq, Repr

/-- The string the library renders for a status, up for healthy and down
for unhealthy. -/
def statusString : Status → String
  | .healthy => "up"
  | .unhealthy => "down"

/-- A status listener callback, modelled by the log line it emits for the
new status. -/
abbrev StatusListener := Status → String

/-- A named check registration: the fields Name, Timeout and Check of the
library struct health.Check as used by the unnamed source file. -/
structure Check where
  Name : String
  Timeout : Duration
  run : CheckFn

/-- A checker option, one constructor per library option the unnamed source
file uses: cache duration, global timeout, a check registration, and a
status listener. -/
inductive CheckerOption where
  | withCacheDuration (ttl : Duration)
  | withTimeout (timeout : Duration)
  | withCheck (check : Check)
  | withStatusListener (listener : StatusListener)

/-- From the unnamed source file: the configuration struct holding the list
of accumulated checker options. -/
structure AndictlCheckerConfig where
  checkers : List CheckerOption

/-- From the unnamed source file: AddCheck appends the option to the list of
checkers, unconditionally and without any validation. -/
def AndictlCheckerConfig.AddCheck (c : AndictlCheckerConfig) (check : CheckerOption) :
    AndictlCheckerConfig :=
  ⟨c.checkers ++ [check]⟩

/-- The status listener InitChecker installs, which logs the status change. -/
def defaultStatusListener : StatusListener := fun s =>
  "health status changed to " ++ statusString s

/-- From the unnamed source file: InitChecker builds the default
configuration by adding, in order, a 1 second cache duration, a 10 second
global timeout, the goroutine-threshold check with a 2 second timeout and
threshold 100, and the status listener. -/
def InitChecker : AndictlCheckerConfig :=
  let config : AndictlCheckerConfig := ⟨[]⟩
  let config := config.AddCheck (.withCacheDuration (1 * second))
  let config := config.AddCheck (.withTimeout (10 * second))
  let config := config.AddCheck
    (.withCheck ⟨"goroutine-threshold", 2 * second, GoroutineCountCheck 100⟩)
  let config := config.AddCheck (.withStatusListener defaultStatusListener)
  config

/-- From the unnamed source file: AddDatabaseCheck registers a check named
database with a 2 second check timeout whose function is
DatabasePingCheck(db, 1 second). -/
def AndictlCheckerConfig.AddDatabaseCheck (c : AndictlCheckerConfig) (db : Option DBHandle) :
    AndictlCheckerConfig :=
  c.AddCheck (.withCheck ⟨"database", 2 * second, DatabasePingCheck db (1 * second)⟩)

/-- The check registrations contained in a list of options, in order. -/
def optionChecks (opts : List CheckerOption) : List Check :=
  opts.filterMap fun opt =>
    match opt with
    | .withCheck ch => some ch
    | _ => none

/-- The names of the checks registered in a configuration, in order. -/
def AndictlCheckerConfig.checkNames (c : AndictlCheckerConfig) : List String :=
  (optionChecks c.checkers).map Check.Name

/-- Modelled from the spec: the handler adapter produced by
health.NewHandler over health.NewChecker. The library constructs the
checker eagerly from the option list passed at the call, so the handler is
modelled by the option list it captured at construction. -/
structure Handler where
  options : List CheckerOption

/-- From the unnamed source file: GetCheckerHandler builds the handler from
the options accumulated so far; the receiver is a value and NewChecker
consumes the options at the call, so the handler captures the current list. -/
def AndictlCheckerConfig.GetCheckerHandler (c : AndictlCheckerConfig) : Handler :=
  ⟨c.checkers⟩

/-- The outcome of one probe: the probe name and its result, none for
success and some reason for failure. -/
structure CheckResult where
  name : String
  outcome : Option String
deriving DecidableEq, Repr

/-- Modelled from the spec: the aggregate state the engine computes, with
the binary status, the per-probe results and the computation timestamp. -/
structure AggregateState where
  status : Status
  results : List CheckResult
  computedAt : Int
deriving DecidableEq, Repr

/-- Modelled from the spec: the aggregation engine of the external library.
Evaluate runs every registered check under the ambient environment,
collects the per-probe results, and sets the status to unhealthy exactly
when at least one result is a failure, healthy otherwise. -/
def Evaluate (checks : List Check) (env : Env) (now : Int) : AggregateState :=
  let results := checks.map fun c => CheckResult.mk c.Name (c.run env)
  { status := if results.any (fun r => r.outcome.isSome) then .unhealthy else .healthy
    results := results
    computedAt := now }

/-- A cache entry: the memoised aggregate state and its expiry instant. -/
structure CacheEntry where
  state : AggregateState
  expiresAt : Int
deriving DecidableEq, Repr

/-- Modelled from the spec: the result-cache step of the engine. Given the
current entry, the ttl, the current time and the compute function, it
returns the served state, the new cache entry and whether compute ran: a
fresh entry is served as is, otherwise compute runs once and its result is
stored with expiry now + ttl. -/
def GetOrCompute (cache : Option CacheEntry) (ttl : Duration) (now : Int)
    (compute : Int → AggregateState) : AggregateState × Option CacheEntry × Bool :=
  match cache with
  | some entry =>
    if now < entry.expiresAt then (entry.state, some entry, false)
    else
      let st := compute now
      (st, some ⟨st, now + ttl⟩, true)
  | none =>
    let st := compute now
    (st, some ⟨st, now + ttl⟩, true)

/-- Modelled from the spec: listener dispatch. The listener fires exactly
when the newly computed status differs from the previous one, or when there
is no previous status because this is the first computation. -/
def shouldNotify (previous : Option Status) (current : Status) : Bool :=
  previous ≠ some current

/-- Modelled from the spec: the listener invocations produced by a sequence
of computed statuses, starting from a previous status (none before the
first computation). Each invocation is recorded as the pair of previous and
current status. -/
def listenerCalls (previous : Option Status) : List Status → List (Option Status × Status)
  | [] => []
  | s :: rest =>
    if shouldNotify previous s then (previous, s) :: listenerCalls (some s) rest
    else listenerCalls (some s) rest

/-! Helper lemmas and a fixed sample environment used by witnesses. -/

/-- A concrete environment used to instantiate theorems on sample inputs. -/
def envW : Env := ⟨0, [], 0, Context.background⟩

lemma evaluate_results_eq (checks : List Check) (env : Env) (now : Int) :
    (Evaluate checks env now).results
      = checks.map fun c => CheckResult.mk c.Name (c.run env) := rfl

lemma evaluate_status_eq (checks : List Check) (env : Env) (now : Int) :
    (Evaluate checks env now).status
      = if (Evaluate checks env now).results.any (fun r => r.outcome.isSome)
        then Status.unhealthy else Status.healthy := rfl

/-- C1: For every evaluation of the configured probe set, the aggregate
status is unhealthy if and only if at least one probe outcome is a failure,
healthy if and only if every probe succeeds, and the status type admits no
third tier. -/
theorem evaluate_status_binary (checks : List Check) (env : Env) (now : Int) :
    ((Evaluate checks env now).status = Status.unhealthy ↔
      ∃ r ∈ (Evaluate checks env now).results, r.outcome ≠ none) ∧
    ((Evaluate checks env now).status = Status.healthy ↔
      ∀ r ∈ (Evaluate checks env now).results, r.outcome = none) ∧
    (∀ s : Status, s = Status.healthy ∨ s = Status.unhealthy) := by
  refine ⟨?_, ?_, fun s => by cases s <;> simp⟩
  · rw [evaluate_status_eq]
    by_cases h : (Evaluate checks env now).results.any (fun r => r.outcome.isSome) = true
    · rw [if_pos h]
      simp only [List.any_eq_true, Option.isSome_iff_ne_none] at h
      exact iff_of_true rfl h
    · rw [if_neg h]
      simp only [List.any_eq_true, Option.isSome_iff_ne_none] at h
      push_neg at h
      constructor
      · intro hc; exact absurd hc (by simp)
      · rintro ⟨r, hr, hne⟩; exact absurd (h r hr) hne
  · rw [evaluate_status_eq]
    by_cases h : (Evaluate checks env now).results.any (fun r => r.outcome.isSome) = true
    · rw [if_pos h]
      simp only [List.any_eq_true, Option.isSome_iff_ne_none] at h
      obtain ⟨r, hr, hne⟩ := h
      constructor
      · intro hc; exact absurd hc (by simp)
      · intro hall; exact absurd (hall r hr) hne
    · rw [if_neg h]
      simp only [List.any_eq_true, Option.isSome_iff_ne_none] at h
      push_neg at h
      exact iff_of_true rfl h

/-- C1 witness: a concrete one-probe set with a failing probe evaluates to
unhealthy, through the iff of the claim theorem. -/
theorem evaluate_status_binary_witness :
    (Evaluate [⟨"a", 0, fun _ => some "boom"⟩] envW 0).status = Status.unhealthy :=
  (evaluate_status_binary [⟨"a", 0, fun _ => some "boom"⟩] envW 0).1.mpr
    ⟨CheckResult.mk "a" (some "boom"), by simp [evaluate_results_eq], by simp⟩

/-- C2: InitChecker registers, in order, a cache ttl of 1 second, a global
timeout of 10 seconds, the goroutine-threshold check with a 2 second
per-probe timeout and threshold 100, and the status listener callback. -/
theorem initChecker_defaults :
    InitChecker.checkers =
      [ CheckerOption.withCacheDuration 1000000000,
        CheckerOption.withTimeout 10000000000,
        CheckerOption.withCheck ⟨"goroutine-threshold", 2000000000, GoroutineCountCheck 100⟩,
        CheckerOption.withStatusListener defaultStatusListener ] := rfl

/-- C3 counterexample: with a passed context that is already expired
(deadline 0 at time 0), the context the ping and the DNS lookup run under
has deadline 5 and does not respect the passed context: the probe work is
not bounded by the context passed to the check. -/
theorem probe_ctx_counterexample :
    Context.respects (DatabasePingCheckCtx 5 ⟨some 0⟩ 0) ⟨some 0⟩ = false ∧
    Context.respects (DNSResolveCheckCtx 5 ⟨some 0⟩ 0) ⟨some 0⟩ = false := by decide

/-- C3 amended: the context the work of DatabasePingCheck and
DNSResolveCheck runs under is derived from context.Background with only the
constructor timeout, independent of the context passed to the check, so its
deadline is now + timeout regardless of the passed context. -/
theorem probe_ctx_from_background (timeout now : Int) (c1 c2 : Context) :
    DatabasePingCheckCtx timeout c1 now = DatabasePingCheckCtx timeout c2 now ∧
    DNSResolveCheckCtx timeout c1 now = DNSResolveCheckCtx timeout c2 now ∧
    (DatabasePingCheckCtx timeout c1 now).deadline = some (now + timeout) ∧
    (DNSResolveCheckCtx timeout c1 now).deadline = some (now + timeout) :=
  ⟨rfl, rfl, rfl, rfl⟩

/-- C4 counterexample: calling AddDatabaseCheck twice on the default
configuration is accepted and leaves two checks named database in the
configured set: the duplicate is appended, not rejected, and no error value
exists anywhere in the interface. -/
theorem duplicate_name_accepted :
    ((InitChecker.AddDatabaseCheck none).AddDatabaseCheck none).checkNames
      = ["goroutine-threshold", "database", "database"] ∧
    ¬ ((InitChecker.AddDatabaseCheck none).AddDatabaseCheck none).checkNames.Nodup := by
  constructor
  · rfl
  · decide

/-- C4 amended: AddCheck appends its option unconditionally, and adding a
database check twice yields a configured set whose check names gain the
name database twice; no validation or rejection happens at setup time. -/
theorem addCheck_appends (c : AndictlCheckerConfig) (opt : CheckerOption)
    (db : Option DBHandle) :
    (c.AddCheck opt).checkers = c.checkers ++ [opt] ∧
    ((c.AddDatabaseCheck db).AddDatabaseCheck db).checkNames
      = c.checkNames ++ ["database", "database"] := by
  refine ⟨rfl, ?_⟩
  simp [AndictlCheckerConfig.AddDatabaseCheck, AndictlCheckerConfig.AddCheck,
        AndictlCheckerConfig.checkNames, optionChecks, List.filterMap_append]

/-- C5: the handler obtained from GetCheckerHandler captures the option
list at construction; a later AddCheck produces a configuration whose list
has the extra option, and its handler differs from the one already
obtained, which still holds exactly the original options. -/
theorem getCheckerHandler_frozen (c : AndictlCheckerConfig) (opt : CheckerOption) :
    c.GetCheckerHandler.options = c.checkers ∧
    (c.AddCheck opt).checkers = c.checkers ++ [opt] ∧
    c.GetCheckerHandler ≠ (c.AddCheck opt).GetCheckerHandler := by
  refine ⟨rfl, rfl, ?_⟩
  intro h
  have hopts := congrArg Handler.options h
  have hlen := congrArg List.length hopts
  simp [AndictlCheckerConfig.GetCheckerHandler, AndictlCheckerConfig.AddCheck] at hlen

lemma getOrCompute_miss (ttl t0 : Int) (compute : Int → AggregateState) :
    GetOrCompute none ttl t0 compute
      = (compute t0, some ⟨compute t0, t0 + ttl⟩, true) := rfl

lemma getOrCompute_entry (entry : CacheEntry) (ttl t1 : Int)
    (compute : Int → AggregateState) :
    GetOrCompute (some entry) ttl t1 compute
      = if t1 < entry.expiresAt then (entry.state, some entry, false)
        else (compute t1, some ⟨compute t1, t1 + ttl⟩, true) := rfl

/-- C6: the first query computes a state stamped with its query time; a
second query strictly before the expiry returns the identical aggregate
state (same computed-at stamp) without recomputing, while a second query at
or after the expiry recomputes, producing a state stamped with the later
time. -/
theorem cache_ttl_semantics (checks : List Check) (env : Env) (ttl t0 t1 : Int) :
    ((GetOrCompute none ttl t0 (Evaluate checks env)).1.computedAt = t0 ∧
     (GetOrCompute none ttl t0 (Evaluate checks env)).2.2 = true) ∧
    (t1 < t0 + ttl →
      (GetOrCompute (GetOrCompute none ttl t0 (Evaluate checks env)).2.1 ttl t1
          (Evaluate checks env)).1
        = (GetOrCompute none ttl t0 (Evaluate checks env)).1 ∧
      (GetOrCompute (GetOrCompute none ttl t0 (Evaluate checks env)).2.1 ttl t1
          (Evaluate checks env)).1.computedAt = t0 ∧
      (GetOrCompute (GetOrCompute none ttl t0 (Evaluate checks env)).2.1 ttl t1
          (Evaluate checks env)).2.2 = false) ∧
    (t0 + ttl ≤ t1 →
      (GetOrCompute (GetOrCompute none ttl t0 (Evaluate checks env)).2.1 ttl t1
          (Evaluate checks env)).2.2 = true ∧
      (GetOrCompute (GetOrCompute none ttl t0 (Evaluate checks env)).2.1 ttl t1
          (Evaluate checks env)).1.computedAt = t1) := by
  rw [getOrCompute_miss]
  refine ⟨⟨rfl, rfl⟩, ?_, ?_⟩
  · intro h
    rw [getOrCompute_entry]
    rw [if_pos (show t1 < (⟨Evaluate checks env t0, t0 + ttl⟩ : CacheEntry).expiresAt from h)]
    exact ⟨rfl, rfl, rfl⟩
  · intro h
    rw [getOrCompute_entry]
    rw [if_neg (show ¬ t1 < (⟨Evaluate checks env t0, t0 + ttl⟩ : CacheEntry).expiresAt
      from not_lt.mpr h)]
    exact ⟨rfl, rfl⟩

/-- C6 witness: with ttl 5, a first query at time 0 and a second at time 3,
the second query serves the identical state without recomputing, and with a
second query at time 7 a recomputation happens. -/
theorem cache_ttl_semantics_witness :
    ((3 : Int) < 0 + 5 ∧
      (GetOrCompute (GetOrCompute none 5 0 (Evaluate [] envW)).2.1 5 3
          (Evaluate [] envW)).1
        = (GetOrCompute none 5 0 (Evaluate [] envW)).1) ∧
    ((0 : Int) + 5 ≤ 7 ∧
      (GetOrCompute (GetOrCompute none 5 0 (Evaluate [] envW)).2.1 5 7
          (Evaluate [] envW)).2.2 = true) :=
  ⟨⟨by decide, ((cache_ttl_semantics [] envW 5 0 3).2.1 (by decide)).1⟩,
   ⟨by decide, ((cache_ttl_semantics [] envW 5 0 7).2.2 (by decide)).1⟩⟩

/-- C7: the listener fires exactly when the new status differs from the
previous one or there is no previous status; a recorded invocation never
repeats the previous status, and the sequence healthy, healthy, unhealthy,
unhealthy yields exactly the initial invocation and one invocation for the
healthy to unhealthy transition. -/
theorem listener_on_transition :
    (∀ (prev : Option Status) (cur : Status),
        shouldNotify prev cur = true ↔ prev ≠ some cur) ∧
    (∀ (prev p : Option Status) (statuses : List Status) (c : Status),
        (p, c) ∈ listenerCalls prev statuses → p ≠ some c) ∧
    listenerCalls none [Status.healthy, Status.healthy, Status.unhealthy, Status.unhealthy]
      = [(none, Status.healthy), (some Status.healthy, Status.unhealthy)] := by
  refine ⟨fun prev cur => by simp [shouldNotify], ?_, by decide⟩
  intro prev p statuses c
  induction statuses generalizing prev with
  | nil => intro h; simp [listenerCalls] at h
  | cons s rest ih =>
    intro h
    by_cases hn : shouldNotify prev s = true
    · rw [listenerCalls, if_pos hn] at h
      rcases List.mem_cons.mp h with h1 | h2
      · obtain ⟨hp, hc⟩ := Prod.mk.injEq .. ▸ h1
        subst hp; subst hc
        simpa [shouldNotify] using hn
      · exact ih (some s) h2
    · rw [listenerCalls, if_neg hn] at h
      exact ih (some s) h

/-- C7 witness: the claim theorem applied to the singleton sequence shows
the recorded first invocation has a previous status differing from the
current one. -/
theorem listener_on_transition_witness :
    ((none, Status.healthy) ∈ listenerCalls none [Status.healthy]) ∧
    (none : Option Status) ≠ some Status.healthy :=
  ⟨by decide, listener_on_transition.2.1 none none [Status.healthy] Status.healthy (by decide)⟩

/-- C8: the check produced by GoroutineCountCheck succeeds exactly when the
observed goroutine count is at most the threshold; a count equal to the
threshold passes, since the comparison is strict greater-than. -/
theorem goroutineCountCheck_le_iff (threshold : Int) (env : Env) :
    (GoroutineCountCheck threshold env = none ↔ env.numGoroutine ≤ threshold) ∧
    GoroutineCountCheck threshold ⟨threshold, [], 0, Context.background⟩ = none := by
  constructor
  · unfold GoroutineCountCheck
    by_cases h : env.numGoroutine > threshold
    · rw [if_pos h]
      constructor
      · intro hc; exact absurd hc (by simp)
      · intro hle; omega
    · rw [if_neg h]
      exact iff_of_true rfl (by omega)
  · unfold GoroutineCountCheck
    exact if_neg (lt_irrefl threshold)

/-- C8 witness: the iff of the claim theorem at a concrete environment with
goroutine count 0 and threshold 5. -/
theorem goroutineCountCheck_le_iff_witness :
    GoroutineCountCheck 5 envW = none :=
  (goroutineCountCheck_le_iff 5 envW).1.mpr (by decide)

/-- C9 counterexample: the threshold minus 2 nanoseconds is negative and
wraps to 2 ^ 64 - 2, yet an observed pause with uint64 value 2 ^ 64 - 1
still exceeds it, so the check fails: a negative threshold does not make
the check succeed for every representable pause value. -/
theorem gcMaxPauseCheck_negative_counterexample :
    (-2 : Int) < 0 ∧ (18446744073709551615 : Nat) < 2 ^ 64 ∧
    GCMaxPauseCheck (-2) ⟨0, [18446744073709551615], 0, Context.background⟩ ≠ none := by
  refine ⟨by decide, by norm_num, ?_⟩
  decide

/-- C9 amended: for every negative threshold in the int64 range, the uint64
conversion wraps modulo 2 ^ 64 to a value of at least 2 ^ 63, so the check
succeeds whenever every observed GC pause is below 2 ^ 63 nanoseconds. -/
theorem gcMaxPauseCheck_negative_wraps (t : Int) (h1 : t < 0) (h2 : -(2 ^ 63) ≤ t)
    (env : Env) (hp : ∀ p ∈ env.pauses, p < 2 ^ 63) :
    2 ^ 63 ≤ uint64OfInt64 t ∧ GCMaxPauseCheck t env = none := by
  have e64 : (2 : Int) ^ 64 = 18446744073709551616 := by norm_num
  have e63i : (2 : Int) ^ 63 = 9223372036854775808 := by norm_num
  have e63n : (2 : Nat) ^ 63 = 9223372036854775808 := by norm_num
  have hge : 2 ^ 63 ≤ uint64OfInt64 t := by
    unfold uint64OfInt64
    rw [e63n, e64] at *
    rw [e63i] at h2
    omega
  refine ⟨hge, ?_⟩
  have hfind : env.pauses.find? (fun pause => decide (pause > uint64OfInt64 t)) = none := by
    rw [List.find?_eq_none]
    intro p hpmem
    have hlt := hp p hpmem
    rw [e63n] at hlt hge
    simp only [decide_eq_true_eq, gt_iff_lt, not_lt]
    omega
  simp only [GCMaxPauseCheck, hfind]

/-- C9 witness: the amended theorem at threshold minus 1 nanosecond and a
single observed pause of 100 nanoseconds. -/
theorem gcMaxPauseCheck_negative_wraps_witness :
    ((-1 : Int) < 0 ∧ -(2 ^ 63) ≤ (-1 : Int) ∧
      ∀ p ∈ (⟨0, [100], 0, Context.background⟩ : Env).pauses, p < 2 ^ 63) ∧
    (2 ^ 63 ≤ uint64OfInt64 (-1) ∧
      GCMaxPauseCheck (-1) ⟨0, [100], 0, Context.background⟩ = none) :=
  ⟨⟨by decide, by norm_num, by norm_num⟩,
    gcMaxPauseCheck_negative_wraps (-1) (by decide) (by norm_num)
      ⟨0, [100], 0, Context.background⟩ (by norm_num)⟩

/-- C10: the check produced by DatabasePingCheck with a nil database handle
returns the failure message database is nil for every timeout and every
environment, and the configuration produced by AddDatabaseCheck with a nil
handle evaluates to an unhealthy aggregate containing exactly that failing
database result rather than crashing. -/
theorem databasePingCheck_nil (timeout : Duration) (env : Env) (now : Int) :
    DatabasePingCheck none timeout env = some "database is nil" ∧
    (Evaluate (optionChecks (InitChecker.AddDatabaseCheck none).checkers) env now).status
      = Status.unhealthy ∧
    CheckResult.mk "database" (some "database is nil")
      ∈ (Evaluate (optionChecks (InitChecker.AddDatabaseCheck none).checkers) env now).results := by
  refine ⟨rfl, ?_, ?_⟩
  · rw [evaluate_status_eq, if_pos]
    rw [evaluate_results_eq]
    simp [InitChecker, AndictlCheckerConfig.AddDatabaseCheck, AndictlCheckerConfig.AddCheck,
      optionChecks, DatabasePingCheck]
  · rw [evaluate_results_eq]
    simp [InitChecker, AndictlCheckerConfig.AddDatabaseCheck, AndictlCheckerConfig.AddCheck,
      optionChecks, DatabasePingCheck]

end Healthcheck
